import Mathlib

/-!
Verification of the OTA host protocol engine (`ota_host.py`).

The Python source is shallowly embedded: bytes are `Nat` values below 256,
byte strings are `List Nat`, the serial input stream is a `List Nat` read
from the front, and the replies of the device during an update session are an
oracle `List Rx` consumed one element per `read_response` call.  Fallible
`struct.pack` calls are modelled with `Option` (a `none` corresponds to an
uncaught `struct.error`).
-/

namespace OTA

/-- Running XOR checksum over a byte list, as computed by the loops in
`send_command` and `send_update_file`. -/
def xorChk (l : List Nat) : Nat := l.foldl (fun a b => a ^^^ b) 0

/-- Response codes from the ESP32 (`class Response(Enum)`). -/
inductive Response
  | ack
  | nack
  | ready
  | checksumError
  | versionInfo
  | error
deriving DecidableEq

/-- The numeric discriminant of each response (`Response(Enum)` values). -/
def Response.code : Response → Nat
  | .ack => 0x10
  | .nack => 0x11
  | .ready => 0x12
  | .checksumError => 0x13
  | .versionInfo => 0x14
  | .error => 0x15

/-- Model of `Response(response_code)` in Python: recovers the enum member from a code
byte, `none` on `ValueError`. -/
def Response.ofCode (n : Nat) : Option Response :=
  if n = 0x10 then some .ack
  else if n = 0x11 then some .nack
  else if n = 0x12 then some .ready
  else if n = 0x13 then some .checksumError
  else if n = 0x14 then some .versionInfo
  else if n = 0x15 then some .error
  else none

/-- Frame construction from `send_command`:
`[code][length][data][xor checksum]`.  struct.pack with format "BB" raises on a
length above 255, which the caller catches; that failure is `none` here. -/
def encode (code : Nat) (data : List Nat) : Option (List Nat) :=
  if data.length > 255 then none
  else
    let packet := code :: data.length :: data
    some (packet ++ [xorChk packet])

/-- Outcome of `read_response`, tagged with the internal branch that was
taken (each branch prints a distinct log message in the source, but they are
only distinct in the log: see `readResponse` below for the returned value). -/
inductive RxResult
  | shortHeader
  | shortChecksum
  | checksumMismatch
  | unknownCode
  | ok (r : Response) (data : List Nat)
deriving DecidableEq

/-- Model of `read_response` on an available input stream: read 2 header bytes, then
`length` data bytes, then 1 checksum byte; verify the running XOR; then look
the code byte up as a `Response`.  A short read of the data leaves nothing
for the checksum read, so it surfaces as the failed checksum read, exactly
as in the source. -/
def readResponseR (input : List Nat) : RxResult :=
  match input with
  | c :: len :: rest =>
    let data := rest.take len
    match rest.drop len with
    | [] => .shortChecksum
    | chk :: _ =>
      let expected := data.foldl (fun a b => a ^^^ b) (c ^^^ len)
      if expected ≠ chk then .checksumMismatch
      else
        match Response.ofCode c with
        | some r => .ok r data
        | none => .unknownCode
  | _ => .shortHeader

/-- The value `read_response` actually returns to its caller:
`(response, data)` on success and `(None, empty bytes)` on every failure. -/
def readResponse (input : List Nat) : Option (Response × List Nat) :=
  match readResponseR input with
  | .ok r d => some (r, d)
  | _ => none

/-- Flip bit `k` of the byte at position `pos` of a frame. -/
def flipBit (l : List Nat) (pos k : Nat) : List Nat :=
  l.set pos ((l.getD pos 0) ^^^ 2 ^ k)

section XorLemmas

theorem foldl_xor_shift (a : Nat) (l : List Nat) :
    l.foldl (fun x y => x ^^^ y) a = a ^^^ l.foldl (fun x y => x ^^^ y) 0 := by
  induction l generalizing a with
  | nil => simp
  | cons b t ih =>
    simp only [List.foldl_cons]
    rw [ih (a ^^^ b), ih (0 ^^^ b)]
    simp [Nat.xor_assoc]

theorem xor_left_comm (a b c : Nat) : a ^^^ (b ^^^ c) = b ^^^ (a ^^^ c) := by
  rw [← Nat.xor_assoc, Nat.xor_comm a b, Nat.xor_assoc]

theorem xor_ne_self_of_ne_zero (a m : Nat) (hm : m ≠ 0) : a ^^^ m ≠ a := by
  intro h
  apply hm
  have h2 : a ^^^ (a ^^^ m) = a ^^^ a := congrArg (a ^^^ ·) h
  rwa [← Nat.xor_assoc, Nat.xor_self, Nat.zero_xor] at h2

end XorLemmas

/-- Version information decoded from a `VERSION_INFO` payload
(`@dataclass VersionInfo`). -/
structure VersionInfo where
  current_version : Nat
  backup_version : Nat
  current_address : Nat
  backup_address : Nat
deriving DecidableEq

/-- The constant `self.version_1_address` (bank A, `0x200000`). -/
def version_1_address : Nat := 0x200000

/-- The constant `self.version_2_address` (bank B, `0x300000`). -/
def version_2_address : Nat := 0x300000

/-- Target-address computation from `send_update_file`: a fresh device
(version 0) gets bank A; otherwise the bank other than the one currently
running. -/
def selectTarget (vi : VersionInfo) : Nat :=
  if vi.current_version = 0 then version_1_address
  else
    if vi.current_address = version_1_address then version_2_address
    else version_1_address

/-- C1. Frame round-trip: for every recognized response code and every
payload of at most 255 bytes, encoding as in `send_command` and then decoding
as in `read_response` returns exactly the same code (as its `Response`
member) and the same payload. -/
theorem frame_roundtrip (c : Nat) (p : List Nat) (r : Response)
    (hr : Response.ofCode c = some r) (hp : p.length ≤ 255) :
    ∃ frame, encode c p = some frame ∧ readResponse frame = some (r, p) := by
  refine ⟨(c :: p.length :: p) ++ [xorChk (c :: p.length :: p)], ?_, ?_⟩
  · simp [encode, Nat.not_lt.mpr hp]
  · have hframe : (c :: p.length :: p) ++ [xorChk (c :: p.length :: p)]
        = c :: p.length :: (p ++ [xorChk (c :: p.length :: p)]) := by simp
    rw [hframe]
    have htake : (p ++ [xorChk (c :: p.length :: p)]).take p.length = p :=
      List.take_left p _
    have hdrop : (p ++ [xorChk (c :: p.length :: p)]).drop p.length
        = [xorChk (c :: p.length :: p)] := List.drop_left p _
    have hchk : p.foldl (fun a b => a ^^^ b) (c ^^^ p.length)
        = xorChk (c :: p.length :: p) := by
      simp [xorChk, List.foldl_cons, Nat.zero_xor]
    simp only [readResponse, readResponseR, htake, hdrop, hchk]
    simp [hr]

/-- Witness for `frame_roundtrip` at code `0x12` (READY) and payload
`[0xAB, 0x05]`. -/
theorem frame_roundtrip_witness :
    ∃ frame, encode 0x12 [0xAB, 0x05] = some frame ∧
      readResponse frame = some (Response.ready, [0xAB, 0x05]) :=
  frame_roundtrip 0x12 [0xAB, 0x05] Response.ready (by decide) (by decide)

/-- C2. Target-bank selection: a fresh device targets bank A; an
installed device targets the bank other than its current one, and never the
bank named by `current_address`. -/
theorem bank_selection (vi : VersionInfo) :
    (vi.current_version = 0 → selectTarget vi = version_1_address) ∧
    (vi.current_version ≠ 0 →
      (vi.current_address = version_1_address →
        selectTarget vi = version_2_address) ∧
      (vi.current_address ≠ version_1_address →
        selectTarget vi = version_1_address) ∧
      selectTarget vi ≠ vi.current_address) := by
  refine ⟨fun h0 => by simp [selectTarget, h0], fun hne => ?_⟩
  refine ⟨fun ha => by simp [selectTarget, hne, ha],
    fun hna => by simp [selectTarget, hne, hna], ?_⟩
  by_cases ha : vi.current_address = version_1_address
  · have hsel : selectTarget vi = version_2_address := by simp [selectTarget, hne, ha]
    rw [hsel, ha]
    decide
  · simp only [selectTarget, if_neg hne, if_neg ha]
    exact fun hcontra => ha hcontra.symm

/-- Witness for `bank_selection`: an installed device currently running from
bank A is updated to bank B. -/
theorem bank_selection_witness :
    selectTarget ⟨5, 0, version_1_address, 0⟩ = version_2_address :=
  ((bank_selection ⟨5, 0, version_1_address, 0⟩).2 (by decide)).1 rfl

/-- C7 counterexample. The three failure causes are not distinguishable
at the receive interface: a truncated frame, a checksum mismatch and an
unknown code byte all return the same `(None, empty bytes)` value; only the internal
branch (a log line) differs. -/
theorem rx_collapse_counterexample :
    readResponseR [0x10, 0x01] = RxResult.shortChecksum ∧
    readResponseR [0x10, 0x00, 0x11] = RxResult.checksumMismatch ∧
    readResponseR [0x20, 0x00, 0x20] = RxResult.unknownCode ∧
    readResponse [0x10, 0x01] = none ∧
    readResponse [0x10, 0x00, 0x11] = none ∧
    readResponse [0x20, 0x00, 0x20] = none := by decide

/-- C7 amended. `read_response` takes distinct internal branches for a
short read, a checksum disagreement and an unrecognized code (distinct log
messages), but its returned value is `none` in all of these cases, so the
causes are not distinguishable from the value the caller receives. -/
theorem rx_failures_collapse (input : List Nat) :
    readResponse input = none ↔
      (readResponseR input = RxResult.shortHeader ∨
        readResponseR input = RxResult.shortChecksum ∨
        readResponseR input = RxResult.checksumMismatch ∨
        readResponseR input = RxResult.unknownCode) := by
  unfold readResponse
  cases h : readResponseR input <;> simp

/-- Witness for `rx_failures_collapse` on a concrete truncated frame. -/
theorem rx_failures_collapse_witness : readResponse [0x10, 0x01] = none :=
  (rx_failures_collapse [0x10, 0x01]).mpr (Or.inr (Or.inl (by decide)))

section ListHelpers

theorem getD_append_lt (l₁ l₂ : List Nat) (i d : Nat) (h : i < l₁.length) :
    (l₁ ++ l₂).getD i d = l₁.getD i d := by
  induction l₁ generalizing i with
  | nil => simp at h
  | cons b t ih =>
    cases i with
    | zero => rfl
    | succ j => simpa using ih j (by simpa using h)

theorem set_append_lt (l₁ l₂ : List Nat) (i x : Nat) (h : i < l₁.length) :
    (l₁ ++ l₂).set i x = l₁.set i x ++ l₂ := by
  induction l₁ generalizing i with
  | nil => simp at h
  | cons b t ih =>
    cases i with
    | zero => rfl
    | succ j => simpa using ih j (by simpa using h)

theorem getD_append_len (l₁ : List Nat) (x d : Nat) :
    (l₁ ++ [x]).getD l₁.length d = x := by
  induction l₁ with
  | nil => rfl
  | cons b t ih => simp [ih]

theorem set_append_len (l₁ : List Nat) (x y : Nat) :
    (l₁ ++ [x]).set l₁.length y = l₁ ++ [y] := by
  induction l₁ with
  | nil => rfl
  | cons b t ih => simp [ih]

theorem take_len_append (q : List Nat) (x : Nat) (n : Nat) (h : q.length = n) :
    (q ++ [x]).take n = q := by
  subst h
  exact List.take_left q [x]

theorem drop_len_append (q : List Nat) (x : Nat) (n : Nat) (h : q.length = n) :
    (q ++ [x]).drop n = [x] := by
  subst h
  exact List.drop_left q [x]

theorem foldl_xor_set (l : List Nat) (i a m : Nat) (h : i < l.length) :
    (l.set i ((l.getD i 0) ^^^ m)).foldl (fun x y => x ^^^ y) a
      = (l.foldl (fun x y => x ^^^ y) a) ^^^ m := by
  induction l generalizing i a with
  | nil => simp at h
  | cons b t ih =>
    cases i with
    | zero =>
      simp only [List.getD_cons_zero, List.set, List.foldl_cons]
      rw [foldl_xor_shift (a ^^^ (b ^^^ m)) t, foldl_xor_shift (a ^^^ b) t]
      simp [Nat.xor_assoc, Nat.xor_comm, xor_left_comm]
    | succ j =>
      simp only [List.getD_cons_succ, List.set, List.foldl_cons]
      exact ih j (a ^^^ b) (by simpa using h)

end ListHelpers

/-- The recomputed checksum over `code, length, payload` equals the trailing
byte that `send_command` appends. -/
theorem chk_spec (c : Nat) (p : List Nat) :
    p.foldl (fun a b => a ^^^ b) (c ^^^ p.length) = xorChk (c :: p.length :: p) := by
  simp [xorChk, List.foldl_cons, Nat.zero_xor]

theorem two_pow_ne_zero (k : Nat) : 2 ^ k ≠ 0 :=
  (Nat.pos_pow_of_pos k (by norm_num)).ne'

/-- C8 counterexample. Flipping a single bit of the length byte of a
validly encoded frame can make decoding succeed (returning a different
frame), rather than fail with a checksum mismatch: for the frame encoding
code `0x10` with payload `[0x10, 0x00]`, flipping bit 1 of byte 1 yields a
byte sequence that decodes as `ACK` with empty payload. -/
theorem checksum_flip_counterexample :
    encode 0x10 [0x10, 0x00] = some [0x10, 0x02, 0x10, 0x00, 0x02] ∧
    flipBit [0x10, 0x02, 0x10, 0x00, 0x02] 1 1 = [0x10, 0x00, 0x10, 0x00, 0x02] ∧
    readResponseR [0x10, 0x00, 0x10, 0x00, 0x02] = RxResult.ok Response.ack [] ∧
    readResponseR [0x10, 0x00, 0x10, 0x00, 0x02] ≠ RxResult.checksumMismatch := by
  decide

/-- C8 amended. Flipping a single bit in any byte of a validly encoded
frame *other than the length byte* (position 1) makes decoding fail with the
checksum-mismatch branch. -/
theorem checksum_flip (c : Nat) (p : List Nat) (frame : List Nat) (pos k : Nat)
    (henc : encode c p = some frame) (hpos : pos < frame.length)
    (hpos1 : pos ≠ 1) (_hk : k < 8) :
    readResponseR (flipBit frame pos k) = RxResult.checksumMismatch := by
  have hl : ¬ p.length > 255 := by
    by_contra h
    simp [encode, h] at henc
  have hframe : frame = c :: p.length :: (p ++ [xorChk (c :: p.length :: p)]) := by
    simp only [encode, if_neg hl, Option.some.injEq] at henc
    rw [← henc]
    simp
  have hfl : frame.length = p.length + 3 := by
    rw [hframe]; simp
  subst hframe
  cases pos with
  | zero =>
    have hflip : flipBit (c :: p.length :: (p ++ [xorChk (c :: p.length :: p)])) 0 k
        = (c ^^^ 2 ^ k) :: p.length :: (p ++ [xorChk (c :: p.length :: p)]) := by
      simp [flipBit]
    rw [hflip]
    have htake : (p ++ [xorChk (c :: p.length :: p)]).take p.length = p :=
      take_len_append p _ _ rfl
    have hdrop : (p ++ [xorChk (c :: p.length :: p)]).drop p.length
        = [xorChk (c :: p.length :: p)] := drop_len_append p _ _ rfl
    have hexp : p.foldl (fun a b => a ^^^ b) ((c ^^^ 2 ^ k) ^^^ p.length)
        = xorChk (c :: p.length :: p) ^^^ 2 ^ k := by
      rw [foldl_xor_shift, ← chk_spec c p, foldl_xor_shift (c ^^^ p.length) p]
      simp [Nat.xor_assoc, Nat.xor_comm, xor_left_comm]
    have hne : p.foldl (fun a b => a ^^^ b) ((c ^^^ 2 ^ k) ^^^ p.length)
        ≠ xorChk (c :: p.length :: p) := by
      rw [hexp]
      exact xor_ne_self_of_ne_zero _ _ (two_pow_ne_zero k)
    simp only [readResponseR, htake, hdrop]
    simp [hne]
  | succ pos' =>
    cases pos' with
    | zero => exact absurd rfl hpos1
    | succ j =>
      have hj : j < p.length ∨ j = p.length := by
        rw [hfl] at hpos
        omega
      have hflip : flipBit (c :: p.length :: (p ++ [xorChk (c :: p.length :: p)]))
          (j + 2) k
          = c :: p.length ::
            ((p ++ [xorChk (c :: p.length :: p)]).set j
              ((p ++ [xorChk (c :: p.length :: p)]).getD j 0 ^^^ 2 ^ k)) := by
        simp [flipBit, List.set, List.getD]
      rw [hflip]
      rcases hj with hj | hj
      · -- payload byte
        have hset : (p ++ [xorChk (c :: p.length :: p)]).set j
            ((p ++ [xorChk (c :: p.length :: p)]).getD j 0 ^^^ 2 ^ k)
            = p.set j (p.getD j 0 ^^^ 2 ^ k) ++ [xorChk (c :: p.length :: p)] := by
          rw [getD_append_lt p _ j 0 hj, set_append_lt p _ j _ hj]
        rw [hset]
        have htake : (p.set j (p.getD j 0 ^^^ 2 ^ k)
            ++ [xorChk (c :: p.length :: p)]).take p.length
            = p.set j (p.getD j 0 ^^^ 2 ^ k) :=
          take_len_append _ _ _ (by simp)
        have hdrop : (p.set j (p.getD j 0 ^^^ 2 ^ k)
            ++ [xorChk (c :: p.length :: p)]).drop p.length
            = [xorChk (c :: p.length :: p)] :=
          drop_len_append _ _ _ (by simp)
        have hexp : (p.set j (p.getD j 0 ^^^ 2 ^ k)).foldl (fun a b => a ^^^ b)
            (c ^^^ p.length) = xorChk (c :: p.length :: p) ^^^ 2 ^ k := by
          rw [foldl_xor_set p j _ _ hj, chk_spec c p]
        have hne : (p.set j (p.getD j 0 ^^^ 2 ^ k)).foldl (fun a b => a ^^^ b)
            (c ^^^ p.length) ≠ xorChk (c :: p.length :: p) := by
          rw [hexp]
          exact xor_ne_self_of_ne_zero _ _ (two_pow_ne_zero k)
        simp only [readResponseR, htake, hdrop]
        rw [if_pos hne]
      · -- checksum byte
        subst hj
        have hset : (p ++ [xorChk (c :: p.length :: p)]).set p.length
            ((p ++ [xorChk (c :: p.length :: p)]).getD p.length 0 ^^^ 2 ^ k)
            = p ++ [xorChk (c :: p.length :: p) ^^^ 2 ^ k] := by
          rw [getD_append_len p _ 0, set_append_len]
        rw [hset]
        have htake : (p ++ [xorChk (c :: p.length :: p) ^^^ 2 ^ k]).take p.length
            = p := take_len_append _ _ _ rfl
        have hdrop : (p ++ [xorChk (c :: p.length :: p) ^^^ 2 ^ k]).drop p.length
            = [xorChk (c :: p.length :: p) ^^^ 2 ^ k] := drop_len_append _ _ _ rfl
        have hne : p.foldl (fun a b => a ^^^ b) (c ^^^ p.length)
            ≠ xorChk (c :: p.length :: p) ^^^ 2 ^ k := by
          rw [chk_spec c p]
          exact fun hcontra =>
            xor_ne_self_of_ne_zero _ _ (two_pow_ne_zero k) hcontra.symm
        simp only [readResponseR, htake, hdrop]
        simp [hne]

/-- Witness for `checksum_flip`: flipping bit 0 of the code byte of the
frame for code `0x10`, payload `[0xAB]`. -/
theorem checksum_flip_witness :
    readResponseR (flipBit [0x10, 0x01, 0xAB, 0xBA] 0 0)
      = RxResult.checksumMismatch :=
  checksum_flip 0x10 [0xAB] [0x10, 0x01, 0xAB, 0xBA] 0 0 (by decide) (by decide)
    (by decide) (by decide)

/-! ### Update session (`send_update_file`) -/

/-- What `read_response` returns to the session: an optional `Response` and
the payload bytes. -/
abbrev Rx := Option Response × List Nat

/-- Reading one response: the replies of the device form an oracle list; an
exhausted oracle is a timed-out read, which returns `(None, empty bytes)`. -/
def oread : List Rx → Rx × List Rx
  | [] => ((none, []), [])
  | r :: rs => (r, rs)

/-- One `send_command(cmd, data)` call recorded in the session trace. -/
inductive Cmd
  | getVersion
  | initUpdate (data : List Nat)
  | sendPacket (data : List Nat)
  | finishUpdate
  | abortUpdate
deriving DecidableEq

/-- Terminal result of `send_update_file`.  The source returns a `bool`; the
distinct return sites are kept apart here: `aborted` is the `return False`
after sending `ABORT_UPDATE`, `failed` carries the message printed at the
corresponding early `return False`, and `crashed` is an uncaught
`struct.error`. -/
inductive SessionOutcome
  | completed
  | failed (reason : String)
  | aborted
  | crashed
deriving DecidableEq

/-- The constant `self.max_retries`. -/
def max_retries : Nat := 3

/-- The constant `self.packet_size`. -/
def packet_size : Nat := 16

/-- Model of struct.pack with format "<I": little-endian u32, `none` on
overflow, which is a raised `struct.error`. -/
def pack32 (n : Nat) : Option (List Nat) :=
  if n < 4294967296 then
    some [n % 256, n / 256 % 256, n / 65536 % 256, n / 16777216 % 256]
  else none

/-- Model of struct.pack with format "<HB": little-endian u16 plus one
byte, `none` on overflow, which is a raised `struct.error`. -/
def packHB (seq chk : Nat) : Option (List Nat) :=
  if seq < 65536 ∧ chk < 256 then some [seq % 256, seq / 256, chk] else none

/-- u32 little-endian decode of four leading bytes (struct.unpack with format
"<IIII" reads the payload in four such groups). -/
def le32 (l : List Nat) : Nat :=
  l.getD 0 0 + 256 * (l.getD 1 0 + 256 * (l.getD 2 0 + 256 * l.getD 3 0))

/-- Model of struct.unpack with format "<IIII" into a `VersionInfo`. -/
def unpackVersion (d : List Nat) : VersionInfo :=
  ⟨le32 d, le32 (d.drop 4), le32 (d.drop 8), le32 (d.drop 12)⟩

/-- The check `get_version_info` makes on the reply: a `VERSION_INFO` response with
exactly 16 payload bytes, else `None`. -/
def decodeVersion (rx : Rx) : Option VersionInfo :=
  match rx.1 with
  | some .versionInfo => if rx.2.length = 16 then some (unpackVersion rx.2) else none
  | _ => none

/-- Outcome of the READY-wait loop. -/
inductive ReadyOutcome
  | ready
  | failedMsg (reason : String)
deriving DecidableEq

/-- The static device-error table `error_messages` with its
its fallback entry, the interpolated unknown-error message. -/
def errorMessage (c : Nat) : String :=
  if c = 1 then "Bad length"
  else if c = 2 then "Update already in progress"
  else if c = 3 then "Invalid file size"
  else if c = 4 then "Invalid target address"
  else if c = 5 then "Flash erase failed"
  else "Unknown error " ++ toString c

/-- The `for attempt in range(self.max_retries)` loop waiting for `READY`
after `INIT_UPDATE`: `READY` proceeds, `ERROR` and `NACK` fail immediately,
anything else retries; exhaustion fails through the `for`-`else`. -/
def awaitReady : Nat → List Rx → ReadyOutcome × List Rx
  | 0, o => (.failedMsg "ESP32 did not respond READY after retries", o)
  | fuel + 1, o =>
    let p := oread o
    match p.1.1 with
    | some .ready => (.ready, p.2)
    | some .error =>
      match p.1.2 with
      | c :: _ => (.failedMsg (errorMessage c), p.2)
      | [] => (.failedMsg "ESP32 returned generic error", p.2)
    | some .nack => (.failedMsg "ESP32 rejected init update", p.2)
    | _ => awaitReady fuel p.2

/-- The count `total_packets = (file_size + self.packet_size - 1) // self.packet_size`. -/
def totalPackets (fd : List Nat) : Nat :=
  (fd.length + packet_size - 1) / packet_size

/-- The `packet_num`-th chunk: `file_data[offset:min(offset+16, size)]`
right-padded with `0xFF` to the packet size. -/
def packetData (fd : List Nat) (i : Nat) : List Nat :=
  let s := (fd.drop (i * packet_size)).take packet_size
  s ++ List.replicate (packet_size - s.length) 0xFF

/-- The 19-byte `SEND_PACKET` payload `seq(u16 LE) ++ checksum ++ data` for
packet `i`, as built when the struct.pack of the header succeeds. -/
def content (fd : List Nat) (i : Nat) : List Nat :=
  [i % 256, i / 256, xorChk (packetData fd i)] ++ packetData fd i

/-- Result of the per-packet retry loop. -/
structure ARes where
  success : Bool
  trace : List Cmd
  rest : List Rx
deriving DecidableEq

/-- The `for retry in range(self.max_retries)` loop for one packet: send,
then `ACK` succeeds, `NACK` gives up immediately, `CHECKSUM_ERROR` and any
other reply (including a timed-out read) retry. -/
def attemptPacket (c : List Nat) : Nat → List Rx → ARes
  | 0, o => ⟨false, [], o⟩
  | fuel + 1, o =>
    let p := oread o
    match p.1.1 with
    | some .ack => ⟨true, [.sendPacket c], p.2⟩
    | some .nack => ⟨false, [.sendPacket c], p.2⟩
    | some .checksumError =>
      let r := attemptPacket c fuel p.2
      ⟨r.success, .sendPacket c :: r.trace, r.rest⟩
    | _ =>
      let r := attemptPacket c fuel p.2
      ⟨r.success, .sendPacket c :: r.trace, r.rest⟩

/-- Result of the whole packet loop. -/
inductive PacketPhase
  | done
  | abortedPkt
  | crashedPkt
deriving DecidableEq

/-- State after the packet loop: phase result, commands sent, oracle left. -/
structure PRes where
  res : PacketPhase
  trace : List Cmd
  rest : List Rx
deriving DecidableEq

/-- The `for packet_num in range(total_packets)` loop, with the current
index and the number of packets still to send.  A failed
struct.pack of the sequence number with format "<HB" is an uncaught exception
(`crashedPkt`); an unsuccessful packet sends `ABORT_UPDATE` and gives up. -/
def loopPackets (fd : List Nat) : Nat → Nat → List Rx → PRes
  | _, 0, o => ⟨.done, [], o⟩
  | i, n + 1, o =>
    match packHB i (xorChk (packetData fd i)) with
    | none => ⟨.crashedPkt, [], o⟩
    | some hdr =>
      let a := attemptPacket (hdr ++ packetData fd i) max_retries o
      if a.success then
        let r := loopPackets fd (i + 1) n a.rest
        ⟨r.res, a.trace ++ r.trace, r.rest⟩
      else ⟨.abortedPkt, a.trace ++ [.abortUpdate], a.rest⟩

/-- The tail of `send_update_file` after `READY`: the packet loop, then
`FINISH_UPDATE` and its `ACK` check. -/
def transferPhase (fd : List Nat) (o : List Rx) :
    SessionOutcome × List Cmd × List Rx :=
  match loopPackets fd 0 (totalPackets fd) o with
  | ⟨.crashedPkt, tr, rest⟩ => (.crashed, tr, rest)
  | ⟨.abortedPkt, tr, rest⟩ => (.aborted, tr, rest)
  | ⟨.done, tr, rest⟩ =>
    match oread rest with
    | (rx, rest2) =>
      if rx.1 = some Response.ack then
        (.completed, tr ++ [.finishUpdate], rest2)
      else (.failed "Update finalization failed", tr ++ [.finishUpdate], rest2)

/-- Model of struct.pack with format "<III": three u32 LE fields, `none`
if any overflows, which is a raised `struct.error`. -/
def pack32x3 (a b c : Nat) : Option (List Nat) :=
  match pack32 a, pack32 b, pack32 c with
  | some x, some y, some z => some (x ++ y ++ z)
  | _, _, _ => none

/-- Model of `send_update_file` from the `INIT_UPDATE` send onwards, with the packed
init payload `b`: await `READY` (failure there returns directly), then run
the transfer. -/
def sessionAfterInit (fd b : List Nat) (o : List Rx) :
    SessionOutcome × List Cmd × List Rx :=
  match awaitReady max_retries o with
  | (.failedMsg m, o2) => (.failed m, [Cmd.getVersion, Cmd.initUpdate b], o2)
  | (.ready, o2) =>
    match transferPhase fd o2 with
    | (out, tr, o3) => (out, Cmd.getVersion :: Cmd.initUpdate b :: tr, o3)

/-- Dispatch on the packed init payload: an overflowing
struct.pack with format "<III" is an uncaught exception raised after
`GET_VERSION` was sent but before `INIT_UPDATE`. -/
def initThen (fd : List Nat) (pb : Option (List Nat)) (o : List Rx) :
    SessionOutcome × List Cmd × List Rx :=
  match pb with
  | some b => sessionAfterInit fd b o
  | none => (.crashed, [Cmd.getVersion], o)

/-- Model of `send_update_file` on file contents `fd`: query version, pick the target
bank, pack and send `INIT_UPDATE`, await `READY`, run the packet loop, and
finalize.  Returns the outcome, the trace of commands sent, and the unread
oracle. -/
def sendUpdateFile (fd : List Nat) (newVersion : Nat) (o : List Rx) :
    SessionOutcome × List Cmd × List Rx :=
  match oread o with
  | (rx0, o1) =>
    match decodeVersion rx0 with
    | none => (.failed "Failed to get version information", [.getVersion], o1)
    | some vi => initThen fd (pack32x3 newVersion (selectTarget vi) fd.length) o1

/-- Device reply shorthands used by the session theorems. -/
def ackRx : Rx := (some Response.ack, [])

def nackRx : Rx := (some Response.nack, [])

def readyRx : Rx := (some Response.ready, [])

def ceRx : Rx := (some Response.checksumError, [])

/-- A 16-byte all-zero `VERSION_INFO` payload: fresh device, version 0. -/
def zeros16 : List Nat := [0, 0, 0, 0, 0, 0, 0, 0, 0, 0, 0, 0, 0, 0, 0, 0]

def viZeroRx : Rx := (some Response.versionInfo, zeros16)

/-- The `INIT_UPDATE` payload sent for a fresh device (target bank A):
`new_version, target_address, file_size`, each u32 LE. -/
def initPayload (nv fsize : Nat) : List Nat :=
  [nv % 256, nv / 256 % 256, nv / 65536 % 256, nv / 16777216 % 256,
   0, 0, 32, 0,
   fsize % 256, fsize / 256 % 256, fsize / 65536 % 256, fsize / 16777216 % 256]

section LoopLemmas

theorem xor_lt_256 {x y : Nat} (hx : x < 256) (hy : y < 256) : x ^^^ y < 256 := by
  have h8 : (256 : Nat) = 2 ^ 8 := by norm_num
  rw [h8] at hx hy ⊢
  exact Nat.xor_lt_two_pow hx hy

theorem foldl_xor_lt (l : List Nat) (a : Nat) (ha : a < 256)
    (h : ∀ b ∈ l, b < 256) : l.foldl (fun x y => x ^^^ y) a < 256 := by
  induction l generalizing a with
  | nil => exact ha
  | cons b t ih =>
    simp only [List.foldl_cons]
    exact ih _ (xor_lt_256 ha (h b (by simp))) (fun x hx => h x (by simp [hx]))

theorem mem_packetData_lt (fd : List Nat) (i : Nat) (h : ∀ b ∈ fd, b < 256) :
    ∀ b ∈ packetData fd i, b < 256 := by
  intro b hb
  simp only [packetData, List.mem_append] at hb
  rcases hb with hb | hb
  · exact h b (List.drop_subset _ _ (List.take_subset _ _ hb))
  · rw [List.eq_of_mem_replicate hb]; norm_num

theorem chk_packet_lt (fd : List Nat) (i : Nat) (h : ∀ b ∈ fd, b < 256) :
    xorChk (packetData fd i) < 256 :=
  foldl_xor_lt _ 0 (by norm_num) (mem_packetData_lt fd i h)

theorem packHB_eq (fd : List Nat) (i : Nat) (hi : i < 65536)
    (h : ∀ b ∈ fd, b < 256) :
    packHB i (xorChk (packetData fd i))
      = some [i % 256, i / 256, xorChk (packetData fd i)] := by
  simp [packHB, hi, chk_packet_lt fd i h]

theorem attemptPacket_ack (c : List Nat) (fuel : Nat) (o : List Rx) :
    attemptPacket c (fuel + 1) (ackRx :: o) = ⟨true, [.sendPacket c], o⟩ := rfl

theorem attemptPacket_nack (c : List Nat) (fuel : Nat) (o : List Rx) :
    attemptPacket c (fuel + 1) (nackRx :: o) = ⟨false, [.sendPacket c], o⟩ := rfl

theorem attemptPacket_ce3 (c : List Nat) (o : List Rx) :
    attemptPacket c 3 (ceRx :: ceRx :: ceRx :: o)
      = ⟨false, [.sendPacket c, .sendPacket c, .sendPacket c], o⟩ := rfl

theorem attemptPacket_ce2_ack (c : List Nat) (o : List Rx) :
    attemptPacket c 3 (ceRx :: ceRx :: ackRx :: o)
      = ⟨true, [.sendPacket c, .sendPacket c, .sendPacket c], o⟩ := rfl

theorem loopPackets_ack_step (fd : List Nat) (i n : Nat) (o : List Rx)
    (hi : i < 65536) (hb : ∀ b ∈ fd, b < 256) :
    loopPackets fd i (n + 1) (ackRx :: o)
      = ⟨(loopPackets fd (i + 1) n o).res,
         .sendPacket (content fd i) :: (loopPackets fd (i + 1) n o).trace,
         (loopPackets fd (i + 1) n o).rest⟩ := by
  simp only [loopPackets, packHB_eq fd i hi hb]
  rw [show max_retries = 2 + 1 from rfl, attemptPacket_ack]
  simp [content]

theorem loopPackets_nack_step (fd : List Nat) (i n : Nat) (o : List Rx)
    (hi : i < 65536) (hb : ∀ b ∈ fd, b < 256) :
    loopPackets fd i (n + 1) (nackRx :: o)
      = ⟨.abortedPkt, [.sendPacket (content fd i), .abortUpdate], o⟩ := by
  simp only [loopPackets, packHB_eq fd i hi hb]
  rw [show max_retries = 2 + 1 from rfl, attemptPacket_nack]
  simp [content]

theorem loopPackets_ce3_step (fd : List Nat) (i n : Nat) (o : List Rx)
    (hi : i < 65536) (hb : ∀ b ∈ fd, b < 256) :
    loopPackets fd i (n + 1) (ceRx :: ceRx :: ceRx :: o)
      = ⟨.abortedPkt,
         [.sendPacket (content fd i), .sendPacket (content fd i),
          .sendPacket (content fd i), .abortUpdate], o⟩ := by
  simp only [loopPackets, packHB_eq fd i hi hb]
  rw [show max_retries = 3 from rfl, attemptPacket_ce3]
  simp [content]

theorem loopPackets_ce2_ack_step (fd : List Nat) (i n : Nat) (o : List Rx)
    (hi : i < 65536) (hb : ∀ b ∈ fd, b < 256) :
    loopPackets fd i (n + 1) (ceRx :: ceRx :: ackRx :: o)
      = ⟨(loopPackets fd (i + 1) n o).res,
         .sendPacket (content fd i) :: .sendPacket (content fd i) ::
           .sendPacket (content fd i) :: (loopPackets fd (i + 1) n o).trace,
         (loopPackets fd (i + 1) n o).rest⟩ := by
  simp only [loopPackets, packHB_eq fd i hi hb]
  rw [show max_retries = 3 from rfl, attemptPacket_ce2_ack]
  simp [content]

theorem loopPackets_crash (fd : List Nat) (n : Nat) (o : List Rx) :
    loopPackets fd 65536 (n + 1) o = ⟨.crashedPkt, [], o⟩ := by
  simp [loopPackets, packHB]

theorem loopPackets_acks (fd : List Nat) (hb : ∀ b ∈ fd, b < 256) :
    ∀ (m i n : Nat) (o : List Rx), m ≤ n → i + m ≤ 65536 →
    loopPackets fd i n (List.replicate m ackRx ++ o)
      = ⟨(loopPackets fd (i + m) (n - m) o).res,
         (List.range m).map (fun t => Cmd.sendPacket (content fd (i + t)))
           ++ (loopPackets fd (i + m) (n - m) o).trace,
         (loopPackets fd (i + m) (n - m) o).rest⟩ := by
  intro m
  induction m with
  | zero => intro i n o _ _; simp
  | succ m ih =>
    intro i n o hmn him
    cases n with
    | zero => omega
    | succ n' =>
      rw [List.replicate_succ, List.cons_append,
        loopPackets_ack_step fd i n' _ (by omega) hb,
        ih (i + 1) n' o (by omega) (by omega)]
      have harith : (fun t => Cmd.sendPacket (content fd (i + 1 + t)))
          = (fun t => Cmd.sendPacket (content fd (i + (t + 1)))) :=
        funext fun t => by rw [show i + 1 + t = i + (t + 1) by omega]
      have hidx : i + 1 + m = i + (m + 1) := by omega
      have hsub : n' - m = n' + 1 - (m + 1) := by omega
      rw [harith, hidx, hsub, List.range_succ_eq_map, List.map_cons, List.map_map]
      simp [Function.comp]

theorem loopPackets_all_acks (fd : List Nat) (hb : ∀ b ∈ fd, b < 256)
    (n i : Nat) (o : List Rx) (h : i + n ≤ 65536) :
    loopPackets fd i n (List.replicate n ackRx ++ o)
      = ⟨.done, (List.range n).map (fun t => Cmd.sendPacket (content fd (i + t))), o⟩ := by
  rw [loopPackets_acks fd hb n i n o (le_refl n) h]
  simp [loopPackets]

end LoopLemmas

/-- Packing the init fields for a fresh device gives the 12-byte
`initPayload`. -/
theorem pack32x3_fresh (nv fsize : Nat) (hnv : nv < 4294967296)
    (hfs : fsize < 4294967296) :
    pack32x3 nv version_1_address fsize = some (initPayload nv fsize) := by
  simp [pack32x3, pack32, hnv, hfs, initPayload, version_1_address]

/-- Unfolding of `send_update_file` through a successful version query on a
fresh device and a `READY` reply. -/
theorem sendUpdateFile_ready (fd : List Nat) (nv : Nat) (o : List Rx)
    (hnv : nv < 4294967296) (hfs : fd.length < 4294967296) :
    sendUpdateFile fd nv (viZeroRx :: readyRx :: o)
      = ((transferPhase fd o).1,
         Cmd.getVersion :: Cmd.initUpdate (initPayload nv fd.length)
           :: (transferPhase fd o).2.1,
         (transferPhase fd o).2.2) := by
  have h1 : sendUpdateFile fd nv (viZeroRx :: readyRx :: o)
      = initThen fd (pack32x3 nv version_1_address fd.length) (readyRx :: o) := rfl
  rw [h1, pack32x3_fresh nv fd.length hnv hfs]
  rfl

/-- C9. Zero-length firmware: zero packets are computed, the packet loop
body never runs, and after a successful handshake the session goes straight
to `FINISH_UPDATE` and completes; no `SEND_PACKET` is ever sent. -/
theorem zero_length_transfer (nv : Nat) (o : List Rx) (hnv : nv < 4294967296) :
    sendUpdateFile [] nv (viZeroRx :: readyRx :: ackRx :: o)
      = (SessionOutcome.completed,
         [Cmd.getVersion, Cmd.initUpdate (initPayload nv 0), Cmd.finishUpdate], o)
    ∧ totalPackets [] = 0
    ∧ (∀ pd, Cmd.sendPacket pd
        ∉ [Cmd.getVersion, Cmd.initUpdate (initPayload nv 0), Cmd.finishUpdate]) := by
  refine ⟨?_, rfl, by simp⟩
  rw [sendUpdateFile_ready [] nv (ackRx :: o) hnv (by decide)]
  rfl

/-- Witness for `zero_length_transfer` at version 1 with an exactly
consumed oracle. -/
theorem zero_length_transfer_witness :
    sendUpdateFile [] 1 [viZeroRx, readyRx, ackRx]
      = (SessionOutcome.completed,
         [Cmd.getVersion, Cmd.initUpdate (initPayload 1 0), Cmd.finishUpdate],
         []) :=
  (zero_length_transfer 1 [] (by decide)).1

/-- C6. A device `ERROR` reply to `INIT_UPDATE` is terminal: the session
fails with the message from the static table (keys 1–5, generic fallback),
reads nothing further, and never sends a `SEND_PACKET`; an `ERROR` with an
empty payload fails with the generic message. -/
theorem init_error_terminal (fd : List Nat) (nv c : Nat) (o o2 : List Rx)
    (hnv : nv < 4294967296) (hfs : fd.length < 4294967296) :
    sendUpdateFile fd nv (viZeroRx :: (some Response.error, [c]) :: o)
      = (SessionOutcome.failed (errorMessage c),
         [Cmd.getVersion, Cmd.initUpdate (initPayload nv fd.length)], o)
    ∧ errorMessage 1 = "Bad length"
    ∧ errorMessage 2 = "Update already in progress"
    ∧ errorMessage 3 = "Invalid file size"
    ∧ errorMessage 4 = "Invalid target address"
    ∧ errorMessage 5 = "Flash erase failed"
    ∧ (c ≠ 1 → c ≠ 2 → c ≠ 3 → c ≠ 4 → c ≠ 5 →
        errorMessage c = "Unknown error " ++ toString c)
    ∧ sendUpdateFile fd nv (viZeroRx :: (some Response.error, []) :: o2)
      = (SessionOutcome.failed "ESP32 returned generic error",
         [Cmd.getVersion, Cmd.initUpdate (initPayload nv fd.length)], o2)
    ∧ (∀ pd, Cmd.sendPacket pd
        ∉ [Cmd.getVersion, Cmd.initUpdate (initPayload nv fd.length)]) := by
  refine ⟨?_, rfl, rfl, rfl, rfl, rfl, ?_, ?_, by simp⟩
  · have h1 : sendUpdateFile fd nv (viZeroRx :: (some Response.error, [c]) :: o)
        = initThen fd (pack32x3 nv version_1_address fd.length)
            ((some Response.error, [c]) :: o) := rfl
    rw [h1, pack32x3_fresh nv fd.length hnv hfs]
    rfl
  · intro h1 h2 h3 h4 h5
    simp [errorMessage, h1, h2, h3, h4, h5]
  · have h1 : sendUpdateFile fd nv (viZeroRx :: (some Response.error, []) :: o2)
        = initThen fd (pack32x3 nv version_1_address fd.length)
            ((some Response.error, []) :: o2) := rfl
    rw [h1, pack32x3_fresh nv fd.length hnv hfs]
    rfl

/-- Witness for `init_error_terminal`: error code 3 on a 1-byte file gives
`Failed("Invalid file size")` with no packets sent. -/
theorem init_error_terminal_witness :
    sendUpdateFile [7] 1 [viZeroRx, (some Response.error, [3])]
      = (SessionOutcome.failed (errorMessage 3),
         [Cmd.getVersion, Cmd.initUpdate (initPayload 1 1)], []) :=
  (init_error_terminal [7] 1 3 [] [] (by decide) (by decide)).1

section ChunkLemmas

theorem getD_take (l : List Nat) (n j d : Nat) (h : j < n) :
    (l.take n).getD j d = l.getD j d := by
  induction l generalizing n j with
  | nil => simp
  | cons b t ih =>
    cases n with
    | zero => omega
    | succ n' =>
      cases j with
      | zero => rfl
      | succ j' => simpa using ih n' j' (by omega)

theorem getD_drop (l : List Nat) (n j d : Nat) :
    (l.drop n).getD j d = l.getD (n + j) d := by
  induction l generalizing n with
  | nil => simp
  | cons b t ih =>
    cases n with
    | zero => simp [Nat.zero_add]
    | succ n' => simp [Nat.succ_add, ih n']

theorem getD_append_ge (l₁ l₂ : List Nat) (j d : Nat) (h : l₁.length ≤ j) :
    (l₁ ++ l₂).getD j d = l₂.getD (j - l₁.length) d := by
  induction l₁ generalizing j with
  | nil => simp
  | cons b t ih =>
    cases j with
    | zero => simp at h
    | succ j' => simpa [Nat.succ_sub_succ] using ih j' (by simpa using h)

theorem getD_replicate (n x j d : Nat) :
    (List.replicate n x).getD j d = if j < n then x else d := by
  induction n generalizing j with
  | zero => simp
  | succ n' ih =>
    cases j with
    | zero => simp [List.replicate_succ]
    | succ j' => simpa [List.replicate_succ, Nat.succ_lt_succ_iff] using ih j'

/-- The data field of every packet has exactly `packet_size` bytes. -/
theorem packetData_length (fd : List Nat) (i : Nat) :
    (packetData fd i).length = packet_size := by
  simp only [packetData, List.length_append, List.length_replicate,
    List.length_take, List.length_drop]
  omega

/-- Byte `j` of packet `i` is byte `i * 16 + j` of the image when that
offset exists, and the `0xFF` fill otherwise. -/
theorem packetData_getD (fd : List Nat) (i j : Nat) (hj : j < packet_size) :
    (packetData fd i).getD j 0
      = if i * packet_size + j < fd.length
        then fd.getD (i * packet_size + j) 0 else 255 := by
  have hs : ((fd.drop (i * packet_size)).take packet_size).length
      = min packet_size (fd.length - i * packet_size) := by
    simp [List.length_take, List.length_drop]
  by_cases hlt : j < ((fd.drop (i * packet_size)).take packet_size).length
  · have hin : i * packet_size + j < fd.length := by
      rw [hs] at hlt
      simp only [packet_size] at hlt ⊢
      omega
    simp only [packetData]
    rw [getD_append_lt _ _ _ _ hlt, getD_take _ _ _ _ hj, getD_drop]
    simp [hin]
  · have hge := Nat.le_of_not_lt hlt
    have hnin : ¬ i * packet_size + j < fd.length := by
      rw [hs] at hge
      simp only [packet_size] at hge hj ⊢
      omega
    have hidx : j - ((fd.drop (i * packet_size)).take packet_size).length
        < packet_size - ((fd.drop (i * packet_size)).take packet_size).length := by
      rw [hs] at hge ⊢
      simp only [packet_size] at hge hj ⊢
      omega
    simp only [packetData]
    rw [getD_append_ge _ _ _ _ hge, getD_replicate, if_pos hidx, if_neg hnin]

end ChunkLemmas

/-- C3. Chunking: with every packet acknowledged, the transfer loop
sends exactly `ceil(file_size / 16)` packets, in offset order; the data field of each packet (the payload after the 3-byte sequence/checksum header) is the
next 16-byte slice of the image, with the part beyond the end of the image
filled with `0xFF`. -/
theorem chunking (fd : List Nat) (o : List Rx)
    (hb : ∀ b ∈ fd, b < 256) (hn : fd.length ≤ 16 * 65536) :
    loopPackets fd 0 (totalPackets fd) (List.replicate (totalPackets fd) ackRx ++ o)
      = ⟨.done,
         (List.range (totalPackets fd)).map
           (fun i => Cmd.sendPacket (content fd i)), o⟩
    ∧ ((List.range (totalPackets fd)).map
        (fun i => Cmd.sendPacket (content fd i))).length = totalPackets fd
    ∧ totalPackets fd = (fd.length + 15) / 16
    ∧ packet_size = 16
    ∧ (∀ i, (content fd i).drop 3 = packetData fd i)
    ∧ (∀ i, (packetData fd i).length = packet_size)
    ∧ (∀ i j, j < packet_size →
        (packetData fd i).getD j 0
          = if i * packet_size + j < fd.length
            then fd.getD (i * packet_size + j) 0 else 255) := by
  have htot : totalPackets fd ≤ 65536 := by
    have : totalPackets fd = (fd.length + 15) / 16 := rfl
    omega
  refine ⟨?_, by simp, rfl, rfl, fun i => rfl,
    fun i => packetData_length fd i, fun i j hj => packetData_getD fd i j hj⟩
  have h := loopPackets_all_acks fd hb (totalPackets fd) 0 o (by omega)
  simpa using h

/-- Witness for `chunking` on a 17-byte image: 2 packets, the second one
byte of image plus 15 bytes of `0xFF` fill. -/
theorem chunking_witness :
    (loopPackets (List.replicate 17 9) 0 (totalPackets (List.replicate 17 9))
        (List.replicate (totalPackets (List.replicate 17 9)) ackRx ++ [])
      = ⟨.done,
         (List.range (totalPackets (List.replicate 17 9))).map
           (fun i => Cmd.sendPacket (content (List.replicate 17 9) i)), []⟩)
    ∧ totalPackets (List.replicate 17 9) = 2
    ∧ packetData (List.replicate 17 9) 1 = 9 :: List.replicate 15 255
    ∧ totalPackets (List.replicate 16 9) = 1
    ∧ packetData (List.replicate 16 9) 0 = List.replicate 16 9 :=
  ⟨(chunking (List.replicate 17 9) [] (by decide) (by decide)).1,
    by decide, by decide, by decide, by decide⟩

section SessionLemmas

theorem map_content_zero (fd : List Nat) :
    (fun t => Cmd.sendPacket (content fd (0 + t)))
      = fun t => Cmd.sendPacket (content fd t) := by
  funext t
  rw [Nat.zero_add]

/-- Distinct sequence numbers give distinct `SEND_PACKET` payloads: the
first two bytes are the little-endian sequence. -/
theorem content_inj (fd : List Nat) {a b : Nat}
    (h : content fd a = content fd b) : a = b := by
  simp only [content, List.cons_append, List.cons.injEq] at h
  obtain ⟨h1, h2, -⟩ := h
  omega

theorem total_le (fd : List Nat) (hn : fd.length ≤ 16 * 65536) :
    totalPackets fd ≤ 65536 := by
  have h : totalPackets fd = (fd.length + 15) / 16 := rfl
  omega

theorem transferPhase_aborted (fd : List Nat) (o : List Rx) (tr : List Cmd)
    (rest : List Rx)
    (h : loopPackets fd 0 (totalPackets fd) o = ⟨.abortedPkt, tr, rest⟩) :
    transferPhase fd o = (.aborted, tr, rest) := by
  unfold transferPhase
  rw [h]

theorem transferPhase_crashed (fd : List Nat) (o : List Rx) (tr : List Cmd)
    (rest : List Rx)
    (h : loopPackets fd 0 (totalPackets fd) o = ⟨.crashedPkt, tr, rest⟩) :
    transferPhase fd o = (.crashed, tr, rest) := by
  unfold transferPhase
  rw [h]

theorem transferPhase_done (fd : List Nat) (o : List Rx) (tr : List Cmd)
    (rest : List Rx)
    (h : loopPackets fd 0 (totalPackets fd) o = ⟨.done, tr, rest⟩) :
    transferPhase fd o
      = match oread rest with
        | (rx, rest2) =>
          if rx.1 = some Response.ack then
            (.completed, tr ++ [Cmd.finishUpdate], rest2)
          else (.failed "Update finalization failed",
                tr ++ [Cmd.finishUpdate], rest2) := by
  unfold transferPhase
  rw [h]

theorem transferPhase_done_parts (fd : List Nat) (o : List Rx) (tr : List Cmd)
    (rest : List Rx)
    (h : loopPackets fd 0 (totalPackets fd) o = ⟨.done, tr, rest⟩) :
    (transferPhase fd o).1
      = (if (oread rest).1.1 = some Response.ack then SessionOutcome.completed
         else SessionOutcome.failed "Update finalization failed")
    ∧ (transferPhase fd o).2.1 = tr ++ [Cmd.finishUpdate]
    ∧ (transferPhase fd o).2.2 = (oread rest).2 := by
  rw [transferPhase_done fd o tr rest h]
  rcases horead : oread rest with ⟨rx, rest2⟩
  by_cases hack : rx.1 = some Response.ack <;> simp [hack]

end SessionLemmas

/-- C5. A `NACK` during the transfer is terminal: the session aborts at
packet `k` without retrying it, sends `ABORT_UPDATE` exactly once, sends
packet `k` exactly once, and never sends any packet with a higher sequence
number. -/
theorem nack_terminal (fd : List Nat) (nv k : Nat) (o : List Rx)
    (hb : ∀ b ∈ fd, b < 256) (hn : fd.length ≤ 16 * 65536)
    (hnv : nv < 4294967296) (hk : k < totalPackets fd) :
    sendUpdateFile fd nv
        (viZeroRx :: readyRx :: (List.replicate k ackRx ++ nackRx :: o))
      = (SessionOutcome.aborted,
         Cmd.getVersion :: Cmd.initUpdate (initPayload nv fd.length)
           :: ((List.range k).map (fun t => Cmd.sendPacket (content fd t))
               ++ [Cmd.sendPacket (content fd k), Cmd.abortUpdate]), o)
    ∧ (Cmd.getVersion :: Cmd.initUpdate (initPayload nv fd.length)
         :: ((List.range k).map (fun t => Cmd.sendPacket (content fd t))
             ++ [Cmd.sendPacket (content fd k), Cmd.abortUpdate])).count
        Cmd.abortUpdate = 1
    ∧ (Cmd.getVersion :: Cmd.initUpdate (initPayload nv fd.length)
         :: ((List.range k).map (fun t => Cmd.sendPacket (content fd t))
             ++ [Cmd.sendPacket (content fd k), Cmd.abortUpdate])).count
        (Cmd.sendPacket (content fd k)) = 1
    ∧ (∀ j, k < j →
        Cmd.sendPacket (content fd j)
          ∉ Cmd.getVersion :: Cmd.initUpdate (initPayload nv fd.length)
             :: ((List.range k).map (fun t => Cmd.sendPacket (content fd t))
                 ++ [Cmd.sendPacket (content fd k), Cmd.abortUpdate])) := by
  have hfs : fd.length < 4294967296 := by omega
  have h65 := total_le fd hn
  obtain ⟨m, hm⟩ := Nat.exists_eq_add_of_lt hk
  have hloop : loopPackets fd 0 (totalPackets fd)
      (List.replicate k ackRx ++ nackRx :: o)
      = ⟨.abortedPkt,
         (List.range k).map (fun t => Cmd.sendPacket (content fd t))
           ++ [Cmd.sendPacket (content fd k), Cmd.abortUpdate], o⟩ := by
    rw [loopPackets_acks fd hb k 0 (totalPackets fd) _ (Nat.le_of_lt hk) (by omega),
      show (0 : Nat) + k = k from Nat.zero_add k,
      show totalPackets fd - k = m + 1 from by omega,
      loopPackets_nack_step fd k m o (by omega) hb, map_content_zero fd]
  have htp := transferPhase_aborted fd _ _ _ hloop
  have hmapAbort : ((List.range k).map
      (fun t => Cmd.sendPacket (content fd t))).count Cmd.abortUpdate = 0 := by
    rw [List.count_eq_zero]
    simp
  have hmapK : ((List.range k).map
      (fun t => Cmd.sendPacket (content fd t))).count
        (Cmd.sendPacket (content fd k)) = 0 := by
    rw [List.count_eq_zero]
    intro hmem
    simp only [List.mem_map, List.mem_range] at hmem
    obtain ⟨t, ht, heq⟩ := hmem
    have ht2 : content fd t = content fd k := by
      simpa using heq
    have := content_inj fd ht2
    omega
  refine ⟨?_, ?_, ?_, ?_⟩
  · rw [sendUpdateFile_ready fd nv _ hnv hfs, htp]
  · simp [List.count_cons, List.count_append, hmapAbort]
  · simp [List.count_cons, List.count_append, hmapK]
  · intro j hj hmem
    simp only [List.mem_cons, List.mem_append, List.mem_map,
      List.mem_range] at hmem
    rcases hmem with h | h | h | h
    · exact Cmd.noConfusion h
    · exact Cmd.noConfusion h
    · obtain ⟨t, ht, heq⟩ := h
      have := content_inj fd (by simpa using heq.symm)
      omega
    · rcases h with h | h
      · have := content_inj fd (by simpa using h)
        omega
      · simp at h

/-- C4. Per-packet retry budget: if packet `k` draws `CHECKSUM_ERROR`
twice and then `ACK`, the same 19-byte packet is sent three times unchanged
and the session continues exactly as if the packet had been acknowledged at
once (same outcome, same remaining oracle, trace differing only in the two
extra re-sends); if it draws `CHECKSUM_ERROR` three times in a row, the
session sends `ABORT_UPDATE` exactly once and terminates aborted. -/
theorem retry_budget (fd : List Nat) (nv k : Nat) (o : List Rx)
    (hb : ∀ b ∈ fd, b < 256) (hn : fd.length ≤ 16 * 65536)
    (hnv : nv < 4294967296) (hk : k < totalPackets fd) :
    ((sendUpdateFile fd nv (viZeroRx :: readyRx ::
        (List.replicate k ackRx ++ ceRx :: ceRx :: ackRx :: o))).1
       = (sendUpdateFile fd nv (viZeroRx :: readyRx ::
          (List.replicate (k + 1) ackRx ++ o))).1
     ∧ (sendUpdateFile fd nv (viZeroRx :: readyRx ::
        (List.replicate k ackRx ++ ceRx :: ceRx :: ackRx :: o))).2.2
       = (sendUpdateFile fd nv (viZeroRx :: readyRx ::
          (List.replicate (k + 1) ackRx ++ o))).2.2
     ∧ ∃ pre post,
         (sendUpdateFile fd nv (viZeroRx :: readyRx ::
            (List.replicate k ackRx ++ ceRx :: ceRx :: ackRx :: o))).2.1
           = pre ++ [Cmd.sendPacket (content fd k), Cmd.sendPacket (content fd k),
                     Cmd.sendPacket (content fd k)] ++ post
         ∧ (sendUpdateFile fd nv (viZeroRx :: readyRx ::
            (List.replicate (k + 1) ackRx ++ o))).2.1
           = pre ++ [Cmd.sendPacket (content fd k)] ++ post)
    ∧ sendUpdateFile fd nv (viZeroRx :: readyRx ::
        (List.replicate k ackRx ++ ceRx :: ceRx :: ceRx :: o))
      = (SessionOutcome.aborted,
         Cmd.getVersion :: Cmd.initUpdate (initPayload nv fd.length)
           :: ((List.range k).map (fun t => Cmd.sendPacket (content fd t))
               ++ [Cmd.sendPacket (content fd k), Cmd.sendPacket (content fd k),
                   Cmd.sendPacket (content fd k), Cmd.abortUpdate]), o)
    ∧ (Cmd.getVersion :: Cmd.initUpdate (initPayload nv fd.length)
        :: ((List.range k).map (fun t => Cmd.sendPacket (content fd t))
            ++ [Cmd.sendPacket (content fd k), Cmd.sendPacket (content fd k),
                Cmd.sendPacket (content fd k), Cmd.abortUpdate])).count
        Cmd.abortUpdate = 1 := by
  have hfs : fd.length < 4294967296 := by omega
  have h65 := total_le fd hn
  obtain ⟨m, hm⟩ := Nat.exists_eq_add_of_lt hk
  rcases hT : loopPackets fd (k + 1) m o with ⟨res, tr, rest⟩
  have hloop1 : loopPackets fd 0 (totalPackets fd)
      (List.replicate k ackRx ++ ceRx :: ceRx :: ackRx :: o)
      = ⟨res,
         (List.range k).map (fun t => Cmd.sendPacket (content fd t))
           ++ Cmd.sendPacket (content fd k) :: Cmd.sendPacket (content fd k)
           :: Cmd.sendPacket (content fd k) :: tr, rest⟩ := by
    rw [loopPackets_acks fd hb k 0 (totalPackets fd) _ (Nat.le_of_lt hk) (by omega),
      show (0 : Nat) + k = k from Nat.zero_add k,
      show totalPackets fd - k = m + 1 from by omega,
      loopPackets_ce2_ack_step fd k m o (by omega) hb, map_content_zero fd, hT]
  have hloop2 : loopPackets fd 0 (totalPackets fd)
      (List.replicate (k + 1) ackRx ++ o)
      = ⟨res,
         (List.range (k + 1)).map (fun t => Cmd.sendPacket (content fd t))
           ++ tr, rest⟩ := by
    rw [loopPackets_acks fd hb (k + 1) 0 (totalPackets fd) _ (by omega) (by omega),
      show (0 : Nat) + (k + 1) = k + 1 from Nat.zero_add _,
      show totalPackets fd - (k + 1) = m from by omega, map_content_zero fd, hT]
  have hloop3 : loopPackets fd 0 (totalPackets fd)
      (List.replicate k ackRx ++ ceRx :: ceRx :: ceRx :: o)
      = ⟨.abortedPkt,
         (List.range k).map (fun t => Cmd.sendPacket (content fd t))
           ++ [Cmd.sendPacket (content fd k), Cmd.sendPacket (content fd k),
               Cmd.sendPacket (content fd k), Cmd.abortUpdate], o⟩ := by
    rw [loopPackets_acks fd hb k 0 (totalPackets fd) _ (Nat.le_of_lt hk) (by omega),
      show (0 : Nat) + k = k from Nat.zero_add k,
      show totalPackets fd - k = m + 1 from by omega,
      loopPackets_ce3_step fd k m o (by omega) hb, map_content_zero fd]
  have r1 := sendUpdateFile_ready fd nv
    (List.replicate k ackRx ++ ceRx :: ceRx :: ackRx :: o) hnv hfs
  have r2 := sendUpdateFile_ready fd nv
    (List.replicate (k + 1) ackRx ++ o) hnv hfs
  have r3 := sendUpdateFile_ready fd nv
    (List.replicate k ackRx ++ ceRx :: ceRx :: ceRx :: o) hnv hfs
  have hmapAbort : ((List.range k).map
      (fun t => Cmd.sendPacket (content fd t))).count Cmd.abortUpdate = 0 := by
    rw [List.count_eq_zero]
    simp
  refine ⟨?_, ?_, ?_⟩
  · -- (a): two checksum errors then ack
    cases res with
    | done =>
      obtain ⟨o1a, o1b, o1c⟩ := transferPhase_done_parts fd _ _ _ hloop1
      obtain ⟨o2a, o2b, o2c⟩ := transferPhase_done_parts fd _ _ _ hloop2
      refine ⟨?_, ?_, Cmd.getVersion :: Cmd.initUpdate (initPayload nv fd.length)
          :: (List.range k).map (fun t => Cmd.sendPacket (content fd t)),
        tr ++ [Cmd.finishUpdate], ?_, ?_⟩
      · rw [r1, r2]
        show (transferPhase fd _).1 = (transferPhase fd _).1
        rw [o1a, o2a]
      · rw [r1, r2]
        show (transferPhase fd _).2.2 = (transferPhase fd _).2.2
        rw [o1c, o2c]
      · rw [r1]
        show Cmd.getVersion :: Cmd.initUpdate (initPayload nv fd.length)
            :: (transferPhase fd _).2.1 = _
        rw [o1b]
        simp
      · rw [r2]
        show Cmd.getVersion :: Cmd.initUpdate (initPayload nv fd.length)
            :: (transferPhase fd _).2.1 = _
        rw [o2b]
        simp [List.range_succ]
    | abortedPkt =>
      have t1 := transferPhase_aborted fd _ _ _ hloop1
      have t2 := transferPhase_aborted fd _ _ _ hloop2
      refine ⟨?_, ?_, Cmd.getVersion :: Cmd.initUpdate (initPayload nv fd.length)
          :: (List.range k).map (fun t => Cmd.sendPacket (content fd t)),
        tr, ?_, ?_⟩
      · rw [r1, r2]
        show (transferPhase fd _).1 = (transferPhase fd _).1
        rw [t1, t2]
      · rw [r1, r2]
        show (transferPhase fd _).2.2 = (transferPhase fd _).2.2
        rw [t1, t2]
      · rw [r1]
        show Cmd.getVersion :: Cmd.initUpdate (initPayload nv fd.length)
            :: (transferPhase fd _).2.1 = _
        rw [t1]
        simp
      · rw [r2]
        show Cmd.getVersion :: Cmd.initUpdate (initPayload nv fd.length)
            :: (transferPhase fd _).2.1 = _
        rw [t2]
        simp [List.range_succ]
    | crashedPkt =>
      have t1 := transferPhase_crashed fd _ _ _ hloop1
      have t2 := transferPhase_crashed fd _ _ _ hloop2
      refine ⟨?_, ?_, Cmd.getVersion :: Cmd.initUpdate (initPayload nv fd.length)
          :: (List.range k).map (fun t => Cmd.sendPacket (content fd t)),
        tr, ?_, ?_⟩
      · rw [r1, r2]
        show (transferPhase fd _).1 = (transferPhase fd _).1
        rw [t1, t2]
      · rw [r1, r2]
        show (transferPhase fd _).2.2 = (transferPhase fd _).2.2
        rw [t1, t2]
      · rw [r1]
        show Cmd.getVersion :: Cmd.initUpdate (initPayload nv fd.length)
            :: (transferPhase fd _).2.1 = _
        rw [t1]
        simp
      · rw [r2]
        show Cmd.getVersion :: Cmd.initUpdate (initPayload nv fd.length)
            :: (transferPhase fd _).2.1 = _
        rw [t2]
        simp [List.range_succ]
  · -- (b): three checksum errors in a row
    rw [r3, transferPhase_aborted fd _ _ _ hloop3]
  · simp [List.count_cons, List.count_append, hmapAbort]

/-- Witness for `retry_budget`: packet 0 of a one-packet file. -/
theorem retry_budget_witness :
    sendUpdateFile (List.replicate 16 7) 1 (viZeroRx :: readyRx ::
        (List.replicate 0 ackRx ++ ceRx :: ceRx :: ceRx :: []))
      = (SessionOutcome.aborted,
         Cmd.getVersion :: Cmd.initUpdate (initPayload 1 16)
           :: ((List.range 0).map
                (fun t => Cmd.sendPacket (content (List.replicate 16 7) t))
               ++ [Cmd.sendPacket (content (List.replicate 16 7) 0),
                   Cmd.sendPacket (content (List.replicate 16 7) 0),
                   Cmd.sendPacket (content (List.replicate 16 7) 0),
                   Cmd.abortUpdate]), []) :=
  (retry_budget (List.replicate 16 7) 1 0 [] (by decide) (by decide)
    (by decide) (by decide)).2.1

/-- Witness for `nack_terminal`: packet 1 of a 3-packet file nacked. -/
theorem nack_terminal_witness :
    sendUpdateFile (List.replicate 34 7) 1
        (viZeroRx :: readyRx :: (List.replicate 1 ackRx ++ nackRx :: []))
      = (SessionOutcome.aborted,
         Cmd.getVersion :: Cmd.initUpdate (initPayload 1 34)
           :: ((List.range 1).map
                (fun t => Cmd.sendPacket (content (List.replicate 34 7) t))
               ++ [Cmd.sendPacket (content (List.replicate 34 7) 1),
                   Cmd.abortUpdate]), []) :=
  (nack_terminal (List.replicate 34 7) 1 1 [] (by decide) (by decide)
    (by decide) (by decide)).1

theorem total_gt (fd : List Nat) (h : 16 * 65536 < fd.length) :
    65536 < totalPackets fd := by
  have ht : totalPackets fd = (fd.length + 15) / 16 := rfl
  omega

/-- C10. Sequence-number width: for an image of at most 65536 packets,
the first two bytes of every sent packet are its exact index as a little-endian
u16 and the all-ack transfer completes; for a larger image, packing the
sequence of packet 65536 raises an uncaught `struct.error` — the session
ends in the crashed state after exactly 65536 packets, with no
`ABORT_UPDATE` sent. -/
theorem seq_width :
    (∀ (fd : List Nat) (nv : Nat) (o : List Rx), (∀ b ∈ fd, b < 256) →
      nv < 4294967296 → fd.length ≤ 16 * 65536 →
      sendUpdateFile fd nv (viZeroRx :: readyRx ::
          (List.replicate (totalPackets fd) ackRx ++ ackRx :: o))
        = (SessionOutcome.completed,
           Cmd.getVersion :: Cmd.initUpdate (initPayload nv fd.length)
             :: ((List.range (totalPackets fd)).map
                  (fun i => Cmd.sendPacket (content fd i)) ++ [Cmd.finishUpdate]),
           o)
      ∧ (∀ i, i < totalPackets fd →
          (content fd i).take 2 = [i % 256, i / 256]
          ∧ i % 256 + 256 * (i / 256) = i
          ∧ i / 256 < 256))
    ∧ (∀ (fd : List Nat) (nv : Nat) (o : List Rx), (∀ b ∈ fd, b < 256) →
        nv < 4294967296 → fd.length < 4294967296 → 16 * 65536 < fd.length →
        sendUpdateFile fd nv (viZeroRx :: readyRx ::
            (List.replicate 65536 ackRx ++ o))
          = (SessionOutcome.crashed,
             Cmd.getVersion :: Cmd.initUpdate (initPayload nv fd.length)
               :: (List.range 65536).map
                    (fun i => Cmd.sendPacket (content fd i)), o)
        ∧ Cmd.abortUpdate
            ∉ Cmd.getVersion :: Cmd.initUpdate (initPayload nv fd.length)
               :: (List.range 65536).map
                    (fun i => Cmd.sendPacket (content fd i))) := by
  constructor
  · intro fd nv o hb hnv hn
    have hfs : fd.length < 4294967296 := by omega
    have h65 := total_le fd hn
    constructor
    · have hloop : loopPackets fd 0 (totalPackets fd)
          (List.replicate (totalPackets fd) ackRx ++ ackRx :: o)
          = ⟨.done, (List.range (totalPackets fd)).map
              (fun i => Cmd.sendPacket (content fd i)), ackRx :: o⟩ := by
        rw [loopPackets_all_acks fd hb (totalPackets fd) 0 (ackRx :: o) (by omega),
          map_content_zero fd]
      rw [sendUpdateFile_ready fd nv _ hnv hfs,
        transferPhase_done fd _ _ _ hloop]
      rfl
    · intro i hi
      refine ⟨rfl, Nat.mod_add_div i 256, ?_⟩
      omega
  · intro fd nv o hb hnv hfs hn
    have htot := total_gt fd hn
    obtain ⟨m, hm⟩ := Nat.exists_eq_add_of_lt htot
    have hloop : loopPackets fd 0 (totalPackets fd)
        (List.replicate 65536 ackRx ++ o)
        = ⟨.crashedPkt, (List.range 65536).map
            (fun i => Cmd.sendPacket (content fd i)), o⟩ := by
      rw [loopPackets_acks fd hb 65536 0 (totalPackets fd) o (by omega) (by omega),
        show (0 : Nat) + 65536 = 65536 from Nat.zero_add _,
        show totalPackets fd - 65536 = m + 1 from by omega,
        loopPackets_crash fd m o, map_content_zero fd]
      simp
    constructor
    · rw [sendUpdateFile_ready fd nv _ hnv hfs,
        transferPhase_crashed fd _ _ _ hloop]
    · intro hmem
      simp at hmem

/-- Witness for `seq_width`: the u16 header identity on a one-packet image,
and the crash of a `16 * 65536 + 16`-byte image after 65536 packets. -/
theorem seq_width_witness :
    (∀ i, i < totalPackets (List.replicate 16 7) →
      (content (List.replicate 16 7) i).take 2 = [i % 256, i / 256]
      ∧ i % 256 + 256 * (i / 256) = i
      ∧ i / 256 < 256)
    ∧ sendUpdateFile (List.replicate (16 * 65536 + 16) 7) 1 (viZeroRx :: readyRx ::
        (List.replicate 65536 ackRx ++ []))
      = (SessionOutcome.crashed,
         Cmd.getVersion
           :: Cmd.initUpdate (initPayload 1 (List.replicate (16 * 65536 + 16) 7).length)
           :: (List.range 65536).map
                (fun i => Cmd.sendPacket (content (List.replicate (16 * 65536 + 16) 7) i)),
         []) :=
  ⟨(seq_width.1 (List.replicate 16 7) 1 []
      (fun b hb => by rw [List.eq_of_mem_replicate hb]; norm_num)
      (by norm_num) (by norm_num)).2,
   (seq_width.2 (List.replicate (16 * 65536 + 16) 7) 1 []
      (fun b hb => by rw [List.eq_of_mem_replicate hb]; norm_num)
      (by norm_num) (by rw [List.length_replicate]; norm_num)
      (by rw [List.length_replicate]; norm_num)).1⟩

end OTA
